import Mathlib

/-!
Shallow embedding of the likelihood engine of `bilby/gw/likelihood.py`
(class `GravitationalWaveTransient` and its ROQ subclass).

Modelling conventions:
* Machine floating-point numbers are modelled by exact rationals `ℚ`.
* Complex numbers (numpy complex arrays entrywise) are modelled by `Cx`,
  pairs of rationals.
* The IEEE value `-inf` (which the code can produce through
  `scipy.special.logsumexp` or the `-inf` fill value of the distance
  interpolator) is modelled by `XR.neginf`; all finite floats are `XR.fin q`.
  The constant `np.nan_to_num(-np.inf)`, the most negative finite double,
  is the exact rational `-(2 ^ 1024 - 2 ^ 971)`.
* A non-finite (`inf`/`nan`) float produced by dividing a finite complex
  number by zero is modelled by `none : Option Cx`.
* External collaborators that are not part of this repository
  (numpy's FFT, scipy's `logsumexp`, `np.log`, the complex modulus,
  the 2-d interpolator object, floating-point square root, the detector
  response/antenna functions) are carried as function-valued fields of the
  state and treated as opaque data.
* Repository code that is referenced but not present under the source tree
  (bilby's `gw/utils.py` and `gw/detector`) is modelled from the spec; the
  corresponding definitions say so in their doc comments.
-/

/-- A complex number with rational real and imaginary parts, modelling one
entry of a numpy complex array. -/
structure Cx where
  re : ℚ
  im : ℚ
deriving DecidableEq, Repr

namespace Cx

def ofQ (q : ℚ) : Cx := ⟨q, 0⟩

instance : Zero Cx := ⟨⟨0, 0⟩⟩
instance : One Cx := ⟨⟨1, 0⟩⟩

instance : Add Cx := ⟨fun z w => ⟨z.re + w.re, z.im + w.im⟩⟩
instance : Neg Cx := ⟨fun z => ⟨-z.re, -z.im⟩⟩
instance : Sub Cx := ⟨fun z w => ⟨z.re - w.re, z.im - w.im⟩⟩
instance : Mul Cx := ⟨fun z w => ⟨z.re * w.re - z.im * w.im, z.re * w.im + z.im * w.re⟩⟩

/-- Complex conjugate. -/
def conj (z : Cx) : Cx := ⟨z.re, -z.im⟩

/-- Squared modulus `|z|^2`, a rational. -/
def normSq (z : Cx) : ℚ := z.re * z.re + z.im * z.im

/-- Scalar multiplication by a rational. -/
def smul (q : ℚ) (z : Cx) : Cx := ⟨q * z.re, q * z.im⟩

/-- Division of a complex number by a rational scalar. -/
def divQ (z : Cx) (q : ℚ) : Cx := ⟨z.re / q, z.im / q⟩

theorem add_def (z w : Cx) : z + w = ⟨z.re + w.re, z.im + w.im⟩ := rfl
theorem zero_def : (0 : Cx) = ⟨0, 0⟩ := rfl
theorem smul_zero_left (z : Cx) : smul 0 z = 0 := by simp [smul, zero_def]
theorem smul_one_left (z : Cx) : smul 1 z = z := by simp [smul]
theorem add_zero_cx (z : Cx) : z + 0 = z := by simp [add_def, zero_def]
theorem zero_add_cx (z : Cx) : (0 : Cx) + z = z := by simp [add_def, zero_def]

end Cx

/-- Sum of a list of complex numbers (`numpy` array summation). -/
def csum (l : List Cx) : Cx := l.foldr (· + ·) 0

/-- Boolean masking of a complex array: `arr[mask]` in numpy. -/
def maskC (mask : List Bool) (l : List Cx) : List Cx :=
  (l.zip mask).filterMap (fun x => if x.2 then some x.1 else none)

/-- Boolean masking of a real array: `arr[mask]` in numpy. -/
def maskQ (mask : List Bool) (l : List ℚ) : List ℚ :=
  (l.zip mask).filterMap (fun x => if x.2 then some x.1 else none)

/-- Modelled from the spec: `bilby.gw.utils.noise_weighted_inner_product`
(the module `bilby/gw/utils.py` is not part of the source tree).  Per the
spec contract it is `4 / T * sum(conj(aa) * bb / psd)` over aligned arrays. -/
def noise_weighted_inner_product (aa bb : List Cx) (psd : List ℚ) (T : ℚ) : Cx :=
  Cx.smul (4 / T)
    (csum (List.zipWith (fun (x : Cx × Cx) (p : ℚ) => Cx.divQ (Cx.conj x.1 * x.2) p)
      (aa.zip bb) psd))

/-- Waveform polarization payload produced by the (external) waveform
generator: a pair of complex arrays (plus, cross). -/
abbrev Wf := List Cx × List Cx

/-- Sampler-side parameter set (`self.parameters`): the fields the embedded
code paths read or write. -/
structure Params where
  geocent_time : ℚ
  time_jitter : ℚ
  luminosity_distance : ℚ
  ra : ℚ
  dec : ℚ
  recalib_index : Option ℕ

/-- Per-detector data consumed by the likelihood: frequency-domain strain,
PSD array, boolean frequency mask, and the (external)
`get_detector_response` function producing the frequency-domain signal from
waveform polarizations and parameters. -/
structure Detector where
  name : String
  strain : List Cx
  psd : List ℚ
  mask : List Bool
  response : Wf → Params → List Cx

/-- Modelled from the spec: `Interferometer.inner_product`
(`bilby/gw/detector`, not in the source tree): the noise-weighted inner
product of the masked strain against the masked signal,
`4/T * sum_masked conj(strain) * signal / PSD`. -/
def inner_product (d : Detector) (signal : List Cx) (T : ℚ) : Cx :=
  noise_weighted_inner_product (maskC d.mask d.strain) (maskC d.mask signal)
    (maskQ d.mask d.psd) T

/-- Modelled from the spec: `Interferometer.optimal_snr_squared`
(`bilby/gw/detector`, not in the source tree): the self inner product of the
masked signal, `4/T * sum_masked |signal|^2 / PSD` (a complex value whose
imaginary part vanishes). -/
def optimal_snr_squared (d : Detector) (signal : List Cx) (T : ℚ) : Cx :=
  noise_weighted_inner_product (maskC d.mask signal) (maskC d.mask signal)
    (maskQ d.mask d.psd) T

/-- Extended real modelling a float that is either finite or `-inf`. -/
inductive XR
  | neginf
  | fin (q : ℚ)
deriving DecidableEq, Repr

namespace XR

instance : Add XR :=
  ⟨fun a b => match a, b with
    | fin x, fin y => fin (x + y)
    | _, _ => neginf⟩

theorem add_fin_fin (x y : ℚ) : (fin x) + (fin y) = fin (x + y) := rfl

end XR

/-- `np.nan_to_num(-np.inf)`: the most negative finite IEEE double,
`-(2 - 2^-52) * 2^1023 = -(2^1024 - 2^971)`. -/
def nan_to_num_neginf : ℚ := -(2 ^ 1024 - 2 ^ 971)

/-- The spec-side masked sum for the matched-filter inner product:
`sum over masked indices of conj(strain) * signal / PSD`, written as a
direct simultaneous recursion over the four per-frequency streams. -/
def spec_sum_dh : List Cx → List Cx → List ℚ → List Bool → Cx
  | s :: ss, g :: gs, p :: ps, m :: ms =>
      (if m then Cx.divQ (Cx.conj s * g) p else 0) + spec_sum_dh ss gs ps ms
  | _, _, _, _ => 0

/-- The spec-side masked sum for the optimal SNR squared:
`sum over masked indices of |signal|^2 / PSD`. -/
def spec_sum_hh : List Cx → List ℚ → List Bool → ℚ
  | g :: gs, p :: ps, m :: ms =>
      (if m then Cx.normSq g / p else 0) + spec_sum_hh gs ps ms
  | _, _, _ => 0

/-- Simultaneous three-list `zipWith`, truncating at the shortest list
(numpy elementwise arithmetic over aligned arrays). -/
def zipWith3 (f : Cx → Cx → ℚ → Cx) : List Cx → List Cx → List ℚ → List Cx
  | a :: as, b :: bs, c :: cs => f a b c :: zipWith3 f as bs cs
  | _, _, _ => []

/-- Elementwise scaling of a complex array by a rational. -/
def scaleL (q : ℚ) (l : List Cx) : List Cx := l.map (Cx.smul q)

/-- Elementwise sum of two complex arrays. -/
def addC (a b : List Cx) : List Cx := List.zipWith (· + ·) a b

/-- Elementwise sum of two rational arrays. -/
def addQ (a b : List ℚ) : List ℚ := List.zipWith (· + ·) a b

/-- Elementwise sum of two 2-d complex arrays. -/
def add2C (a b : List (List Cx)) : List (List Cx) := List.zipWith addC a b

/-- Real dot product (`np.dot` over real arrays). -/
def dotQ (a b : List ℚ) : ℚ := (List.zipWith (· * ·) a b).sum

/-- Complex dot product without conjugation (`np.dot` over complex arrays). -/
def dotC (a b : List Cx) : Cx := csum (List.zipWith (· * ·) a b)

/-- `signal[mask] *= draw`: multiply the masked entries of `signal`, in
order, by the entries of the (masked-length) calibration draw. -/
def applyCalib : List Bool → List Cx → List Cx → List Cx
  | m :: ms, cs, s :: ss =>
    if m then
      match cs with
      | c :: cs2 => (s * c) :: applyCalib ms cs2 ss
      | [] => s :: applyCalib ms [] ss
    else s :: applyCalib ms cs ss
  | _, _, _ => []

/-- The joint shape of the optional array fields of `_CalculatedSNRs`
(`d_inner_h_array`, `optimal_snr_squared_array`): the four mutually
exclusive branches of the base `calculate_snrs` produce exactly these
combinations (source lines 259-295). -/
inductive MargArrays
  | noArrays
  | timeCalib (dih : List (List Cx)) (osa : List ℚ)
  | timeOnly (dih : List Cx)
  | calibOnly (dih : List Cx) (osa : List ℚ)

/-- The `_CalculatedSNRs` record (source lines 120-127).  The scalar
`complex_matched_filter_snr` is `none` when the float division by
`optimal_snr_squared ** 0.5` produces a non-finite value
(division by zero); `d_inner_h_squared_tc_array` is always `None` in the
source and is omitted. -/
structure CalculatedSNRs where
  d_inner_h : Cx
  optimal_snr_squared : Cx
  complex_matched_filter_snr : Option Cx
  arrays : MargArrays

/-- The likelihood-object state: detector list, segment duration, the four
marginalization flags plus the jitter flag, calibration draw data, the
time-marginalization grid, the distance-marginalization reference, and the
external collaborators (numpy FFT, scipy logsumexp, `np.log`, complex
modulus, log-Bessel, 2-d interpolator, float square root) carried as
opaque function fields. -/
structure GWState where
  interferometers : List Detector
  duration : ℚ
  n_freq : ℕ
  time_marginalization : Bool
  distance_marginalization : Bool
  phase_marginalization : Bool
  calibration_marginalization : Bool
  jitter_time : Bool
  number_of_response_curves : ℕ
  calibration_draws : String → ℕ → List Cx
  calibration_abs_draws : String → ℕ → List ℚ
  sqrtQ : ℚ → ℚ
  fftFn : List Cx → List Cx
  absC : Cx → ℚ
  logQ : ℚ → ℚ
  ln_i0 : ℚ → ℚ
  interp2d : ℚ → ℚ → XR
  lse : List XR → List ℚ → XR
  times : List ℚ
  delta_tc : ℚ
  time_prior_prob : ℚ → ℚ
  time_prior_min : ℚ
  time_prior_max : ℚ
  ref_dist : ℚ

/-- `GravitationalWaveTransient.calculate_snrs` (source lines 236-302):
obtain the detector response, apply a chosen calibration draw when
`recalib_index` is among the parameters, form the scalar inner products,
and fill the marginalization arrays according to the flag combination. -/
def calculate_snrs (st : GWState) (p : Params) (wf : Wf) (d : Detector) : CalculatedSNRs :=
  let signal0 := d.response wf p
  let signal :=
    match p.recalib_index with
    | some k => applyCalib d.mask (st.calibration_draws d.name k) signal0
    | none => signal0
  let T := st.duration
  let dih := inner_product d signal T
  let osnr := optimal_snr_squared d signal T
  let cmf : Option Cx := if osnr = 0 then none else some (Cx.divQ dih (st.sqrtQ osnr.re))
  let arrays : MargArrays :=
    if st.time_marginalization && st.calibration_marginalization then
      let base := zipWith3 (fun s g q => Cx.divQ (Cx.conj s * g) q) d.strain signal d.psd
      let integ2 := List.zipWith (fun (g : Cx) (q : ℚ) => 4 / T * Cx.normSq g / q) signal d.psd
      MargArrays.timeCalib
        ((List.range st.number_of_response_curves).map (fun k =>
          scaleL (4 / T) (st.fftFn ((applyCalib d.mask (st.calibration_draws d.name k) base).dropLast))))
        ((List.range st.number_of_response_curves).map (fun k =>
          dotQ (maskQ d.mask integ2) (st.calibration_abs_draws d.name k)))
    else if st.time_marginalization then
      MargArrays.timeOnly (scaleL (4 / T) (st.fftFn
        (zipWith3 (fun g s q => Cx.divQ (g * Cx.conj s) q)
          signal.dropLast d.strain.dropLast d.psd.dropLast)))
    else if st.calibration_marginalization && p.recalib_index.isNone then
      let integ := scaleL (4 / T) (zipWith3 (fun s g q => Cx.divQ (Cx.conj s * g) q) d.strain signal d.psd)
      let integ2 := List.zipWith (fun (g : Cx) (q : ℚ) => 4 / T * Cx.normSq g / q) signal d.psd
      MargArrays.calibOnly
        ((List.range st.number_of_response_curves).map (fun k =>
          dotC (maskC d.mask integ) (st.calibration_draws d.name k)))
        ((List.range st.number_of_response_curves).map (fun k =>
          dotQ (maskQ d.mask integ2) (st.calibration_abs_draws d.name k)))
    else MargArrays.noArrays
  ⟨dih, osnr, cmf, arrays⟩

/-- `_setup_rho` (source lines 802-808): rescale the live inner products to
the reference distance. -/
def setup_rho (st : GWState) (p : Params) (dih : Cx) (h : ℚ) : Cx × ℚ :=
  (Cx.smul (p.luminosity_distance / st.ref_dist) dih,
   h * p.luminosity_distance ^ 2 / st.ref_dist ^ 2)

/-- `distance_marginalized_likelihood` (source lines 692-701), scalar form:
rescale to the reference distance and interpolate against the lookup table
(`-inf` fill outside the grid is `XR.neginf` through `interp2d`). -/
def distance_marginalized_likelihood (st : GWState) (p : Params) (dih : Cx) (h : ℚ) : XR :=
  let r := setup_rho st p dih h
  let dval := if st.phase_marginalization then st.absC r.1 else r.1.re
  st.interp2d dval r.2

/-- `phase_marginalized_likelihood` (source lines 703-709), scalar form:
`ln_i0(|d_inner_h|) - h_inner_h / 2`. -/
def phase_marginalized_likelihood (st : GWState) (dih : Cx) (h : ℚ) : ℚ :=
  st.ln_i0 (st.absC dih) - h / 2

/-- `time_marginalized_likelihood` (source lines 711-725): per-time log
likelihoods, optionally jitter-shifted time grid, `logsumexp` weighted by
`prior(t) * delta_tc`. -/
def time_marginalized_likelihood (st : GWState) (p : Params) (dihT : List Cx) (h : ℚ) : XR :=
  let log_l : List XR :=
    if st.distance_marginalization then
      dihT.map (fun z => distance_marginalized_likelihood st p z h)
    else if st.phase_marginalization then
      dihT.map (fun z => XR.fin (phase_marginalized_likelihood st z h))
    else dihT.map (fun z => XR.fin (z.re - h / 2))
  let ts := if st.jitter_time then st.times.map (· + p.time_jitter) else st.times
  let tp := ts.map (fun t => st.time_prior_prob t * st.delta_tc)
  st.lse log_l tp

/-- `time_and_calibration_marginalized_likelihood` (source lines 727-752):
restrict the (possibly jitter-shifted) time grid to the prior support, form
the (curve, time) log-likelihood matrix, and `logsumexp` it against
`outer(time_probs, 1/N)`. -/
def time_and_calibration_marginalized_likelihood (st : GWState) (p : Params)
    (dihA : List (List Cx)) (h : List ℚ) : XR :=
  let ts0 := if st.jitter_time then st.times.map (· + p.time_jitter) else st.times
  let tmask := ts0.map (fun t => decide (st.time_prior_min ≤ t) && decide (t ≤ st.time_prior_max))
  let ts := maskQ tmask ts0
  let tp := ts.map (fun t => st.time_prior_prob t * st.delta_tc)
  let dihA2 := dihA.map (fun row => maskC tmask row)
  let rows : List (List XR) :=
    if st.distance_marginalization then
      List.zipWith (fun row hk => row.map (fun z => distance_marginalized_likelihood st p z hk)) dihA2 h
    else if st.phase_marginalization then
      List.zipWith (fun row hk => row.map (fun z => XR.fin (st.ln_i0 (st.absC z) - hk / 2))) dihA2 h
    else
      List.zipWith (fun row hk => row.map (fun z => XR.fin (z.re - hk / 2))) dihA2 h
  let wrows : List (List ℚ) :=
    h.map (fun _ => tp.map (fun q => q / (st.number_of_response_curves : ℚ)))
  st.lse rows.flatten wrows.flatten

/-- Subtraction of a finite rational from an extended real. -/
def XR.subQ : XR → ℚ → XR
  | XR.neginf, _ => XR.neginf
  | XR.fin x, q => XR.fin (x - q)

/-- `calibration_marginalized_likelihood` (source lines 789-800):
`logsumexp` over the per-curve log likelihoods minus `log(N_curves)`. -/
def calibration_marginalized_likelihood (st : GWState) (p : Params)
    (dihC : List Cx) (h : List ℚ) : XR :=
  let log_l : List XR :=
    if st.distance_marginalization then
      List.zipWith (fun z hk => distance_marginalized_likelihood st p z hk) dihC h
    else if st.phase_marginalization then
      List.zipWith (fun z hk => XR.fin (st.ln_i0 (st.absC z) - hk / 2)) dihC h
    else List.zipWith (fun z hk => XR.fin (z.re - hk / 2)) dihC h
  (st.lse log_l (log_l.map (fun _ => 1))).subQ (st.logQ (st.number_of_response_curves : ℚ))

/-- `get_sky_frame_parameters` applied through `self.parameters.update`
(source lines 361, 1056-1073), specialized to the embedded configuration
`reference_frame = "sky"`, `time_reference = "geocent"`: the returned
`ra`, `dec`, `geocent_time` are the existing parameter values, so the
update leaves the parameters unchanged. -/
def update_sky_frame (p : Params) : Params :=
  { p with ra := p.ra, dec := p.dec, geocent_time := p.geocent_time }

/-- An SNR kernel: the one overridable method of the class hierarchy
(`calculate_snrs` of the base class or of the ROQ subclass). -/
abbrev Kernel := GWState → Params → Wf → Detector → CalculatedSNRs

def arr_time_only (r : CalculatedSNRs) : List Cx :=
  match r.arrays with
  | MargArrays.timeOnly l => l
  | _ => []

def arr_tc_dih (r : CalculatedSNRs) : List (List Cx) :=
  match r.arrays with
  | MargArrays.timeCalib a _ => a
  | _ => []

def arr_tc_osa (r : CalculatedSNRs) : List ℚ :=
  match r.arrays with
  | MargArrays.timeCalib _ b => b
  | _ => []

def arr_cal_dih (r : CalculatedSNRs) : List Cx :=
  match r.arrays with
  | MargArrays.calibOnly a _ => a
  | _ => []

def arr_cal_osa (r : CalculatedSNRs) : List ℚ :=
  match r.arrays with
  | MargArrays.calibOnly _ b => b
  | _ => []

/-- `GravitationalWaveTransient.log_likelihood_ratio` (source lines
357-435), parameterized by the SNR kernel (the subclasses override only
`calculate_snrs`).  Returns the log-likelihood ratio together with the
final parameter state (the source mutates `self.parameters` in place).
A `none` waveform returns `np.nan_to_num(-np.inf)` immediately. -/
def jitter_shift (st : GWState) (p : Params) : Params :=
  if st.time_marginalization && st.jitter_time then
    { p with geocent_time := p.geocent_time + p.time_jitter }
  else p

def log_lr_with (kern : Kernel) (st : GWState) (wfOut : Option Wf) (p0 : Params) : XR × Params :=
  let p1 := update_sky_frame p0
  match wfOut with
  | none => (XR.fin nan_to_num_neginf, p1)
  | some wf =>
    let timeJ := st.time_marginalization && st.jitter_time
    let p2 := jitter_shift st p1
    let snrs := st.interferometers.map (fun d => kern st p2 wf d)
    let dih := csum (snrs.map (fun r => r.d_inner_h))
    let osnr := (snrs.map (fun r => r.optimal_snr_squared.re)).sum
    let log_l : XR :=
      if st.calibration_marginalization && st.time_marginalization then
        let dihA := (snrs.map arr_tc_dih).foldl add2C
          (List.replicate st.number_of_response_curves (List.replicate (st.n_freq - 1) (0 : Cx)))
        let osa := (snrs.map arr_tc_osa).foldl addQ
          (List.replicate st.number_of_response_curves (0 : ℚ))
        time_and_calibration_marginalized_likelihood st p2 dihA osa
      else if st.calibration_marginalization then
        let dihC := (snrs.map arr_cal_dih).foldl addC
          (List.replicate st.number_of_response_curves (0 : Cx))
        let osa := (snrs.map arr_cal_osa).foldl addQ
          (List.replicate st.number_of_response_curves (0 : ℚ))
        calibration_marginalized_likelihood st p2 dihC osa
      else if st.time_marginalization then
        let dihT := (snrs.map arr_time_only).foldl addC
          (List.replicate (st.n_freq - 1) (0 : Cx))
        time_marginalized_likelihood st p2 dihT osnr
      else if st.distance_marginalization then
        distance_marginalized_likelihood st p2 dih osnr
      else if st.phase_marginalization then
        XR.fin (phase_marginalized_likelihood st dih osnr)
      else XR.fin (dih.re - osnr / 2)
    let p3 := if timeJ then { p2 with geocent_time := p2.geocent_time - p2.time_jitter } else p2
    (log_l, p3)

/-- The base-class kernel. -/
def base_kernel : Kernel := fun st p wf d => calculate_snrs st p wf d

/-- `GravitationalWaveTransient.noise_log_likelihood` (source lines
346-355): subtract half the noise-weighted self inner product of the
masked strain for each detector, then take the real part. -/
def noise_log_likelihood (st : GWState) : ℚ :=
  (st.interferometers.foldl
    (fun acc d => acc - Cx.divQ
      (noise_weighted_inner_product (maskC d.mask d.strain) (maskC d.mask d.strain)
        (maskQ d.mask d.psd) st.duration) 2)
    0).re

/-- `GravitationalWaveTransient.log_likelihood` (source lines 810-811):
the likelihood ratio plus the noise log likelihood. -/
def log_likelihood_with (kern : Kernel) (st : GWState) (wfOut : Option Wf) (p : Params) : XR × Params :=
  let r := log_lr_with kern st wfOut p
  (r.1 + XR.fin (noise_log_likelihood st), r.2)

/-- Python `int(...)` applied to a float ratio: truncation toward zero. -/
def pyInt (q : ℚ) : ℤ := if 0 ≤ q then ⌊q⌋ else ⌈q⌉

/-- The precomputed ROQ weight data for one detector: the time-sample grid,
the (time, linear-basis) complex weight matrix, and the real quadratic
weights. -/
structure RoqWeights where
  time_samples : List ℚ
  linear : List (List Cx)
  quadratic : List ℚ

/-- `ROQGravitationalWaveTransient._closest_time_indices` (source lines
1386-1408): the five indices around the truncated grid position of `time`,
and whether they all lie inside the sample window. -/
def closest_time_indices (time : ℚ) (samples : List ℚ) : List ℤ × Bool :=
  let closest := pyInt ((time - samples.getD 0 0) / (samples.getD 1 0 - samples.getD 0 0))
  ([closest - 2, closest - 1, closest, closest + 1, closest + 2],
   decide (0 ≤ closest - 2) && decide (closest + 2 < (samples.length : ℤ)))

/-- Coefficient `a` of `_interp_five_samples` (source line 1432). -/
def interp_a (ts : List ℚ) (time : ℚ) : ℚ :=
  (ts.getD 3 0 - time) / (ts.getD 1 0 - ts.getD 0 0)

/-- Coefficient `b = 1 - a` (source line 1433). -/
def interp_b (ts : List ℚ) (time : ℚ) : ℚ := 1 - interp_a ts time

/-- Coefficient `c = (a^3 - a) / 6` (source line 1434). -/
def interp_c (ts : List ℚ) (time : ℚ) : ℚ :=
  ((interp_a ts time) ^ 3 - interp_a ts time) / 6

/-- Coefficient `d = (b^3 - b) / 6` (source line 1435). -/
def interp_d (ts : List ℚ) (time : ℚ) : ℚ :=
  ((interp_b ts time) ^ 3 - interp_b ts time) / 6

/-- `ROQGravitationalWaveTransient._interp_five_samples` (source lines
1410-1436): degree-3 local interpolation from the five nearest samples. -/
def interp_five_samples (ts : List ℚ) (vals : List Cx) (time : ℚ) : Cx :=
  let r1 := Cx.smul (1 / 4)
    (-(vals.getD 0 0) + Cx.smul 8 (vals.getD 1 0) - Cx.smul 14 (vals.getD 2 0)
      + Cx.smul 8 (vals.getD 3 0) - vals.getD 4 0)
  let r2 := vals.getD 2 0 - Cx.smul 2 (vals.getD 3 0) + vals.getD 4 0
  Cx.smul (interp_a ts time) (vals.getD 2 0) + Cx.smul (interp_b ts time) (vals.getD 3 0)
    + Cx.smul (interp_c ts time) r1 + Cx.smul (interp_d ts time) r2

/-- `ROQGravitationalWaveTransient.calculate_snrs` (source lines
1315-1384).  The detector-projected linear and quadratic basis responses
(`f_plus * h_plus + f_cross * h_cross`, already including the calibration
factor) and the per-detector arrival time are taken as inputs; they are
produced by external antenna-response / calibration / time-delay code.
When the five-point stencil leaves the precomputed window, the sentinel
record with `np.nan_to_num(-np.inf)` matched-filter entries and zero
optimal SNR squared is returned (source lines 1355-1362). -/
def roq_calculate_snrs (st : GWState) (w : RoqWeights) (hLin hQuad : List Cx)
    (ifo_time : ℚ) : CalculatedSNRs :=
  let ci := closest_time_indices ifo_time w.time_samples
  if ci.2 = false then
    ⟨Cx.ofQ nan_to_num_neginf, 0, some (Cx.ofQ nan_to_num_neginf), MargArrays.noArrays⟩
  else
    let tc := ci.1.map (fun i =>
      csum (List.zipWith (fun h wgt => Cx.conj h * wgt) hLin (w.linear.getD i.toNat [])))
    let tsSel := ci.1.map (fun i => w.time_samples.getD i.toNat 0)
    let dih := interp_five_samples tsSel tc ifo_time
    let osnr := (List.zipWith (fun h wq => Cx.normSq h * wq) hQuad w.quadratic).sum
    let cmf := if osnr = 0 then none else some (Cx.divQ dih (st.sqrtQ osnr))
    ⟨dih, Cx.ofQ osnr, cmf, MargArrays.noArrays⟩

/-- The ROQ kernel, assembled from per-detector weight data and the
external functions producing the projected basis responses and the
detector arrival time. -/
def roq_kernel_of (wF : Detector → RoqWeights) (hLinF hQuadF : Detector → Wf → Params → List Cx)
    (timeF : Detector → Params → ℚ) : Kernel :=
  fun st p wf d => roq_calculate_snrs st (wF d) (hLinF d wf p) (hQuadF d wf p) (timeF d p)

/-- The contents of a distance-marginalization cache file (`np.savez`
archive, source lines 891-897): each named array may be absent. -/
structure NpzFile where
  distance_array : Option (List ℚ)
  prior_array : Option (List ℚ)
  lookup_table : Option (List (List ℚ))
  reference_distance : Option ℚ
  phase_marginalization : Option Bool
deriving DecidableEq, Repr

/-- The distance-marginalization configuration held by the likelihood
object: distance grid, prior values on it, reference distance,
phase-marginalization flag, and the built lookup table. -/
structure DistMargConfig where
  distance_array : List ℚ
  prior_array : List ℚ
  ref_dist : ℚ
  phase_marginalization : Bool
  lookup_table : List (List ℚ)
deriving DecidableEq, Repr

/-- `cache_lookup_table` (source lines 891-897): save all five named
arrays. -/
def cache_lookup_table (cfg : DistMargConfig) : NpzFile :=
  ⟨some cfg.distance_array, some cfg.prior_array, some cfg.lookup_table,
   some cfg.ref_dist, some cfg.phase_marginalization⟩

/-- `_test_cached_lookup_table` (source lines 899-911): check the four
configuration keys in dict insertion order, reporting the first absent or
mismatched key. -/
def test_cached_lookup_table (cfg : DistMargConfig) (f : NpzFile) : Bool × Option String :=
  match f.distance_array with
  | none => (false, some "distance_array")
  | some v =>
    if v = cfg.distance_array then
      match f.prior_array with
      | none => (false, some "prior_array")
      | some w =>
        if w = cfg.prior_array then
          match f.reference_distance with
          | none => (false, some "reference_distance")
          | some r =>
            if r = cfg.ref_dist then
              match f.phase_marginalization with
              | none => (false, some "phase_marginalization")
              | some b =>
                if b = cfg.phase_marginalization then (true, none)
                else (false, some "phase_marginalization")
            else (false, some "reference_distance")
        else (false, some "prior_array")
    else (false, some "distance_array")

/-- `load_lookup_table` (source lines 870-889) restricted to the file
path: a file on disk is returned only when `_test_cached_lookup_table`
matches, otherwise the caller falls back to rebuilding.  (Absence of the
file and an unreadable file both end in a rebuild.) -/
def load_lookup_table (cfg : DistMargConfig) (disk : Option NpzFile) : Option NpzFile :=
  match disk with
  | some f => if (test_cached_lookup_table cfg f).1 then some f else none
  | none => none

/-- Whether `_setup_distance_marginalization` took the lookup table from
the cache or rebuilt it. -/
inductive TableSource
  | fromCache (tbl : List (List ℚ))
  | rebuilt
deriving DecidableEq, Repr

/-- `_setup_distance_marginalization` (source lines 839-854) on the file
path: a loaded (hence already validated) file supplies `lookup_table`,
otherwise `_create_lookup_table` rebuilds it. -/
def setup_distance_marginalization (cfg : DistMargConfig) (disk : Option NpzFile) : TableSource :=
  match load_lookup_table cfg disk with
  | some f => TableSource.fromCache (f.lookup_table.getD [])
  | none => TableSource.rebuilt

/-- A prior entry as seen by `_check_marginalized_prior_is_set`: whether
the key is present in the prior dict, and whether it is a fixed
(delta-function) prior. -/
structure PriorSpec where
  present : Bool
  fixed : Bool
deriving DecidableEq, Repr

/-- The raise-relevant fragment of `GravitationalWaveTransient.__init__`
(source lines 129-205 with 304-344): the priors setter raises when no
priors are supplied but a time/phase/distance marginalization is
requested, and `_check_marginalized_prior_is_set` raises exactly when the
corresponding prior is present and fixed.  The embedded scope is the
default `reference_frame = "sky"`, `time_reference = "geocenter"` and a
prior dict without `redshift`/`comoving_distance` entries.  No other
statement on these lines raises; in particular no flag combination is
rejected. -/
def init_checks (time_marg dist_marg phase_marg calib_marg : Bool)
    (priors : Option (String → PriorSpec)) : Except String Unit :=
  match priors with
  | none =>
    if time_marg || phase_marg || dist_marg then
      Except.error "marginalized likelihood without priors"
    else Except.ok ()
  | some pr =>
    if time_marg && (pr "geocent_time").present && (pr "geocent_time").fixed then
      Except.error "prior for geocent_time is fixed"
    else if phase_marg && (pr "phase").present && (pr "phase").fixed then
      Except.error "prior for phase is fixed"
    else if dist_marg && (pr "luminosity_distance").present && (pr "luminosity_distance").fixed then
      Except.error "prior for luminosity_distance is fixed"
    else
      let _ := calib_marg
      Except.ok ()

theorem Cx.mul_def (z w : Cx) : z * w = ⟨z.re * w.re - z.im * w.im, z.re * w.im + z.im * w.re⟩ := rfl

theorem Cx.mul_zero_cx (z : Cx) : z * 0 = 0 := by
  simp [Cx.mul_def, Cx.zero_def]

theorem Cx.conj_mul_self (z : Cx) : Cx.conj z * z = Cx.ofQ (Cx.normSq z) := by
  simp only [Cx.conj, Cx.mul_def, Cx.ofQ, Cx.normSq, Cx.mk.injEq]
  constructor <;> ring

theorem Cx.divQ_zero_left (q : ℚ) : Cx.divQ 0 q = 0 := by
  simp [Cx.divQ, Cx.zero_def]

theorem Cx.divQ_ofQ (x q : ℚ) : Cx.divQ (Cx.ofQ x) q = Cx.ofQ (x / q) := by
  simp [Cx.divQ, Cx.ofQ]

theorem Cx.smul_ofQ (q x : ℚ) : Cx.smul q (Cx.ofQ x) = Cx.ofQ (q * x) := by
  simp [Cx.smul, Cx.ofQ]

theorem Cx.ofQ_add (x y : ℚ) : Cx.ofQ x + Cx.ofQ y = Cx.ofQ (x + y) := by
  simp [Cx.ofQ, Cx.add_def]

theorem Cx.ofQ_zero : Cx.ofQ 0 = 0 := rfl

theorem Cx.smul_zero_right (q : ℚ) : Cx.smul q 0 = 0 := by
  simp [Cx.smul, Cx.zero_def]

@[simp] theorem csum_nil : csum [] = 0 := rfl

@[simp] theorem csum_cons (z : Cx) (l : List Cx) : csum (z :: l) = z + csum l := rfl

@[simp] theorem maskC_nil_mask (l : List Cx) : maskC [] l = [] := by
  simp [maskC]

@[simp] theorem maskC_nil_list (m : List Bool) : maskC m [] = [] := by
  simp [maskC]

@[simp] theorem maskC_cons (b : Bool) (ms : List Bool) (a : Cx) (ss : List Cx) :
    maskC (b :: ms) (a :: ss) = if b then a :: maskC ms ss else maskC ms ss := by
  cases b <;> simp [maskC]

@[simp] theorem maskQ_nil_mask (l : List ℚ) : maskQ [] l = [] := by
  simp [maskQ]

@[simp] theorem maskQ_nil_list (m : List Bool) : maskQ m [] = [] := by
  simp [maskQ]

@[simp] theorem maskQ_cons (b : Bool) (ms : List Bool) (a : ℚ) (ss : List ℚ) :
    maskQ (b :: ms) (a :: ss) = if b then a :: maskQ ms ss else maskQ ms ss := by
  cases b <;> simp [maskQ]

/-- The masked `zipWith` pipeline of `noise_weighted_inner_product` agrees
with the direct spec-side masked sum for the matched filter. -/
theorem masked_terms_dh : ∀ (m : List Bool) (s g : List Cx) (p : List ℚ),
    csum (List.zipWith (fun (x : Cx × Cx) (q : ℚ) => Cx.divQ (Cx.conj x.1 * x.2) q)
      ((maskC m s).zip (maskC m g)) (maskQ m p)) = spec_sum_dh s g p m := by
  intro m
  induction m with
  | nil =>
    intro s g p
    cases s <;> cases g <;> cases p <;> simp [spec_sum_dh]
  | cons b ms ih =>
    intro s g p
    cases s with
    | nil => cases g <;> cases p <;> simp [spec_sum_dh]
    | cons a ss =>
      cases g with
      | nil => cases p <;> simp [spec_sum_dh]
      | cons c gs =>
        cases p with
        | nil =>
          cases b <;> simp [spec_sum_dh]
        | cons q ps =>
          cases b with
          | false => simpa [spec_sum_dh, Cx.zero_add_cx] using ih ss gs ps
          | true => simp [spec_sum_dh, ih ss gs ps]

/-- The masked `zipWith` pipeline of the self inner product agrees with
the direct spec-side masked sum for the optimal SNR squared (the imaginary
parts cancel termwise). -/
theorem masked_terms_hh : ∀ (m : List Bool) (g : List Cx) (p : List ℚ),
    csum (List.zipWith (fun (x : Cx × Cx) (q : ℚ) => Cx.divQ (Cx.conj x.1 * x.2) q)
      ((maskC m g).zip (maskC m g)) (maskQ m p)) = Cx.ofQ (spec_sum_hh g p m) := by
  intro m
  induction m with
  | nil =>
    intro g p
    cases g <;> cases p <;> simp [spec_sum_hh, Cx.ofQ_zero]
  | cons b ms ih =>
    intro g p
    cases g with
    | nil => cases p <;> simp [spec_sum_hh, Cx.ofQ_zero]
    | cons c gs =>
      cases p with
      | nil => cases b <;> simp [spec_sum_hh, Cx.ofQ_zero]
      | cons q ps =>
        cases b with
        | false => simpa [spec_sum_hh, Cx.zero_add_cx] using ih gs ps
        | true =>
          simp only [maskC_cons, maskQ_cons, if_true, List.zip_cons_cons,
            List.zipWith_cons_cons, csum_cons, ih gs ps, spec_sum_hh,
            Cx.conj_mul_self, Cx.divQ_ofQ, Cx.ofQ_add, if_true]

/-- `inner_product` in terms of the spec-side masked sum. -/
theorem inner_product_eq (d : Detector) (g : List Cx) (T : ℚ) :
    inner_product d g T = Cx.smul (4 / T) (spec_sum_dh d.strain g d.psd d.mask) := by
  simp [inner_product, noise_weighted_inner_product, masked_terms_dh]

/-- `optimal_snr_squared` in terms of the spec-side masked sum: a real
(zero imaginary part) complex value. -/
theorem optimal_snr_squared_eq (d : Detector) (g : List Cx) (T : ℚ) :
    optimal_snr_squared d g T = Cx.ofQ (4 / T * spec_sum_hh g d.psd d.mask) := by
  simp [optimal_snr_squared, noise_weighted_inner_product, masked_terms_hh, Cx.smul_ofQ]

theorem Cx.smul_divQ_cancel (s : ℚ) (hs : s ≠ 0) (z : Cx) :
    Cx.smul s (Cx.divQ z s) = z := by
  cases z with
  | mk x y =>
    simp only [Cx.smul, Cx.divQ, Cx.mk.injEq]
    constructor <;> field_simp

/-- The scalar-field contract of the base `calculate_snrs`, shared by the
developments below. -/
theorem calculate_snrs_fields (st : GWState) (p : Params) (wf : Wf) (d : Detector)
    (hrec : p.recalib_index = none) :
    (calculate_snrs st p wf d).d_inner_h
        = Cx.smul (4 / st.duration) (spec_sum_dh d.strain (d.response wf p) d.psd d.mask)
    ∧ (calculate_snrs st p wf d).optimal_snr_squared
        = Cx.ofQ (4 / st.duration * spec_sum_hh (d.response wf p) d.psd d.mask)
    ∧ ((calculate_snrs st p wf d).optimal_snr_squared = 0 →
        (calculate_snrs st p wf d).complex_matched_filter_snr = none)
    ∧ ((calculate_snrs st p wf d).optimal_snr_squared ≠ 0 →
        st.sqrtQ (calculate_snrs st p wf d).optimal_snr_squared.re ≠ 0 →
        ∃ z, (calculate_snrs st p wf d).complex_matched_filter_snr = some z
          ∧ Cx.smul (st.sqrtQ (calculate_snrs st p wf d).optimal_snr_squared.re) z
              = (calculate_snrs st p wf d).d_inner_h) := by
  refine ⟨?_, ?_, ?_, ?_⟩
  · simp [calculate_snrs, hrec, inner_product_eq]
  · simp [calculate_snrs, hrec, optimal_snr_squared_eq]
  · intro h0
    simp only [calculate_snrs, hrec] at h0 ⊢
    simp [h0]
  · intro h0 hs
    simp only [calculate_snrs, hrec] at h0 hs ⊢
    refine ⟨Cx.divQ (inner_product d (d.response wf p) st.duration)
      (st.sqrtQ (optimal_snr_squared d (d.response wf p) st.duration).re), ?_, ?_⟩
    · simp [h0]
    · exact Cx.smul_divQ_cancel _ hs _

/-- Claim C1: for every detector and every frequency-domain signal array
(no calibration-draw index among the parameters), the base-class SNR
kernel returns a record with
`d_inner_h = 4/T * sum_masked conj(strain) * signal / PSD`,
`optimal_snr_squared = 4/T * sum_masked |signal|^2 / PSD` (T the segment
duration), and `complex_matched_filter_snr = d_inner_h /
sqrt(optimal_snr_squared)` (stated multiplicatively through the modelled
float square root); when `optimal_snr_squared = 0` the division produces
the non-finite marker (`inf`/`nan` in float semantics) and no exception. -/
theorem c1_snr_kernel_contract (st : GWState) (p : Params) (wf : Wf) (d : Detector)
    (hrec : p.recalib_index = none) :
    (calculate_snrs st p wf d).d_inner_h
        = Cx.smul (4 / st.duration) (spec_sum_dh d.strain (d.response wf p) d.psd d.mask)
    ∧ (calculate_snrs st p wf d).optimal_snr_squared
        = Cx.ofQ (4 / st.duration * spec_sum_hh (d.response wf p) d.psd d.mask)
    ∧ ((calculate_snrs st p wf d).optimal_snr_squared = 0 →
        (calculate_snrs st p wf d).complex_matched_filter_snr = none)
    ∧ ((calculate_snrs st p wf d).optimal_snr_squared ≠ 0 →
        st.sqrtQ (calculate_snrs st p wf d).optimal_snr_squared.re ≠ 0 →
        ∃ z, (calculate_snrs st p wf d).complex_matched_filter_snr = some z
          ∧ Cx.smul (st.sqrtQ (calculate_snrs st p wf d).optimal_snr_squared.re) z
              = (calculate_snrs st p wf d).d_inner_h) :=
  calculate_snrs_fields st p wf d hrec

/-- Concrete single-frequency detector used in witnesses: strain `[2]`,
PSD `[1]`, mask `[true]`, response identically `[2]`. -/
def wDet : Detector :=
  ⟨"H1", [Cx.ofQ 2], [1], [true], fun _ _ => [Cx.ofQ 2]⟩

/-- Concrete likelihood state for witnesses: one detector, duration 1, all
marginalization flags off, trivial external functions, `sqrtQ` returning
the exact square root 4 of the optimal SNR squared 16. -/
def wState : GWState :=
  ⟨[wDet], 1, 2, false, false, false, false, false, 0,
   fun _ _ => [], fun _ _ => [], fun _ => 4, fun l => l, fun z => z.re,
   fun q => q, fun q => q, fun _ _ => XR.fin 0, fun _ _ => XR.fin 0,
   [], 0, fun _ => 0, 0, 0, 1⟩

/-- Concrete parameters for witnesses. -/
def wParams : Params := ⟨0, 0, 1, 0, 0, none⟩

theorem c1_snr_kernel_contract_witness :
    wParams.recalib_index = none
    ∧ (calculate_snrs wState wParams ([], []) wDet).d_inner_h
        = Cx.smul (4 / wState.duration)
            (spec_sum_dh wDet.strain (wDet.response ([], []) wParams) wDet.psd wDet.mask)
    ∧ (∃ z, (calculate_snrs wState wParams ([], []) wDet).complex_matched_filter_snr = some z
        ∧ Cx.smul (wState.sqrtQ (calculate_snrs wState wParams ([], []) wDet).optimal_snr_squared.re) z
            = (calculate_snrs wState wParams ([], []) wDet).d_inner_h) :=
  ⟨rfl, (c1_snr_kernel_contract wState wParams ([], []) wDet rfl).1,
   (c1_snr_kernel_contract wState wParams ([], []) wDet rfl).2.2.2
     (by rw [(c1_snr_kernel_contract wState wParams ([], []) wDet rfl).2.1]
         norm_num [spec_sum_hh, Cx.normSq, Cx.ofQ, Cx.zero_def, wState, wDet]
         decide)
     (by norm_num [wState])⟩

theorem Cx.sub_re (z w : Cx) : (z - w).re = z.re - w.re := rfl

theorem Cx.zero_re : (0 : Cx).re = 0 := rfl

theorem Cx.divQ_re (z : Cx) (q : ℚ) : (Cx.divQ z q).re = z.re / q := rfl

/-- The accumulating fold of `noise_log_likelihood` in terms of a list
sum, for any starting accumulator. -/
theorem nll_fold (T : ℚ) : ∀ (l : List Detector) (z : Cx),
    (l.foldl
      (fun acc d => acc - Cx.divQ
        (noise_weighted_inner_product (maskC d.mask d.strain) (maskC d.mask d.strain)
          (maskQ d.mask d.psd) T) 2)
      z).re
      = z.re + (l.map (fun d =>
          -(1 : ℚ) / 2 * (4 / T * spec_sum_hh d.strain d.psd d.mask))).sum := by
  intro l
  induction l with
  | nil => intro z; simp
  | cons d ds ih =>
    intro z
    have hofq : (noise_weighted_inner_product (maskC d.mask d.strain) (maskC d.mask d.strain)
        (maskQ d.mask d.psd) T) = Cx.ofQ (4 / T * spec_sum_hh d.strain d.psd d.mask) := by
      simp [noise_weighted_inner_product, masked_terms_hh, Cx.smul_ofQ]
    simp only [List.foldl_cons, List.map_cons, List.sum_cons, ih, hofq,
      Cx.sub_re, Cx.divQ_re, Cx.ofQ]
    ring

/-- Claim C2: `noise_log_likelihood()` is the sum over detectors of
`-1/2 * 4/T * sum_masked |strain|^2 / PSD`, and its value does not depend
on the time/distance/phase/calibration marginalization flags. -/
theorem c2_noise_log_likelihood (st : GWState) (t1 d1 p1 c1 : Bool) :
    noise_log_likelihood st
        = (st.interferometers.map (fun d =>
            -(1 : ℚ) / 2 * (4 / st.duration * spec_sum_hh d.strain d.psd d.mask))).sum
    ∧ noise_log_likelihood
        { st with time_marginalization := t1, distance_marginalization := d1,
                  phase_marginalization := p1, calibration_marginalization := c1 }
        = noise_log_likelihood st := by
  constructor
  · have h := nll_fold st.duration st.interferometers 0
    simpa [noise_log_likelihood, Cx.zero_re] using h
  · rfl

theorem update_sky_frame_eq (p : Params) : update_sky_frame p = p := rfl

theorem csum_eq_zero : ∀ (l : List Cx), (∀ z ∈ l, z = 0) → csum l = 0 := by
  intro l h
  induction l with
  | nil => rfl
  | cons a as ih =>
    rw [csum_cons, h a (List.mem_cons_self a as), Cx.zero_add_cx]
    exact ih (fun z hz => h z (List.mem_cons_of_mem a hz))

/-- An identically zero signal gives a zero matched-filter sum. -/
theorem spec_sum_dh_zero_sig : ∀ (g s : List Cx) (p : List ℚ) (m : List Bool),
    (∀ z ∈ g, z = 0) → spec_sum_dh s g p m = 0 := by
  intro g
  induction g with
  | nil => intro s p m _; cases s <;> cases p <;> cases m <;> simp [spec_sum_dh]
  | cons c gs ih =>
    intro s p m hz
    cases s with
    | nil => simp [spec_sum_dh]
    | cons a ss =>
      cases p with
      | nil => simp [spec_sum_dh]
      | cons q ps =>
        cases m with
        | nil => simp [spec_sum_dh]
        | cons b ms =>
          have hc : c = 0 := hz c (List.mem_cons_self c gs)
          have hrest := ih ss ps ms (fun z hzm => hz z (List.mem_cons_of_mem c hzm))
          simp [spec_sum_dh, hc, hrest, Cx.mul_zero_cx, Cx.divQ_zero_left,
            Cx.add_zero_cx, Cx.zero_add_cx]

/-- An identically zero signal gives a zero optimal-SNR-squared sum. -/
theorem spec_sum_hh_zero_sig : ∀ (g : List Cx) (p : List ℚ) (m : List Bool),
    (∀ z ∈ g, z = 0) → spec_sum_hh g p m = 0 := by
  intro g
  induction g with
  | nil => intro p m _; cases p <;> cases m <;> simp [spec_sum_hh]
  | cons c gs ih =>
    intro p m hz
    cases p with
    | nil => simp [spec_sum_hh]
    | cons q ps =>
      cases m with
      | nil => simp [spec_sum_hh]
      | cons b ms =>
        have hc : c = 0 := hz c (List.mem_cons_self c gs)
        have hrest := ih ps ms (fun z hzm => hz z (List.mem_cons_of_mem c hzm))
        simp [spec_sum_hh, hc, hrest, Cx.normSq, Cx.zero_def]

/-- With all four marginalization flags off, `log_likelihood_ratio`
reduces to `Re(d_inner_h) - optimal_snr_squared / 2` accumulated over the
detectors. -/
theorem llr_no_flags (kern : Kernel) (st : GWState) (wf : Wf) (p : Params)
    (ht : st.time_marginalization = false) (hd : st.distance_marginalization = false)
    (hp : st.phase_marginalization = false) (hc : st.calibration_marginalization = false) :
    log_lr_with kern st (some wf) p
      = (XR.fin ((csum ((st.interferometers.map (fun d => kern st p wf d)).map
            (fun r => r.d_inner_h))).re
          - ((st.interferometers.map (fun d => kern st p wf d)).map
              (fun r => r.optimal_snr_squared.re)).sum / 2), p) := by
  simp [log_lr_with, jitter_shift, update_sky_frame_eq, ht, hd, hp, hc]

/-- Claim C3: for every detector, an identically zero waveform response
signal yields `optimal_snr_squared = 0` and `d_inner_h = 0`, and with no
marginalization flags set `log_likelihood_ratio()` returns 0. -/
theorem c3_zero_signal (st : GWState) (p : Params) (wf : Wf)
    (hrec : p.recalib_index = none)
    (ht : st.time_marginalization = false) (hd : st.distance_marginalization = false)
    (hp : st.phase_marginalization = false) (hc : st.calibration_marginalization = false)
    (hz : ∀ d ∈ st.interferometers, ∀ z ∈ d.response wf p, z = (0 : Cx)) :
    (∀ d ∈ st.interferometers,
        (calculate_snrs st p wf d).d_inner_h = 0
        ∧ (calculate_snrs st p wf d).optimal_snr_squared = 0)
    ∧ (log_lr_with base_kernel st (some wf) p).1 = XR.fin 0 := by
  have key : ∀ d ∈ st.interferometers,
      (calculate_snrs st p wf d).d_inner_h = 0
      ∧ (calculate_snrs st p wf d).optimal_snr_squared = 0 := by
    intro d hdm
    have h1 := (calculate_snrs_fields st p wf d hrec).1
    have h2 := (calculate_snrs_fields st p wf d hrec).2.1
    constructor
    · rw [h1, spec_sum_dh_zero_sig _ _ _ _ (hz d hdm), Cx.smul_zero_right]
    · rw [h2, spec_sum_hh_zero_sig _ _ _ (hz d hdm), mul_zero, Cx.ofQ_zero]
  refine ⟨key, ?_⟩
  rw [llr_no_flags base_kernel st wf p ht hd hp hc]
  have hdih : csum ((st.interferometers.map (fun d => base_kernel st p wf d)).map
      (fun r => r.d_inner_h)) = 0 := by
    apply csum_eq_zero
    intro z hzm
    simp only [List.map_map, List.mem_map, Function.comp] at hzm
    obtain ⟨d, hdm, rfl⟩ := hzm
    exact (key d hdm).1
  have hosnr : ((st.interferometers.map (fun d => base_kernel st p wf d)).map
      (fun r => r.optimal_snr_squared.re)).sum = 0 := by
    apply List.sum_eq_zero
    intro x hxm
    simp only [List.map_map, List.mem_map, Function.comp] at hxm
    obtain ⟨d, hdm, rfl⟩ := hxm
    rw [show base_kernel st p wf d = calculate_snrs st p wf d from rfl,
      (key d hdm).2, Cx.zero_re]
  rw [hdih, hosnr, Cx.zero_re]
  norm_num

/-- Concrete zero-response detector for the C3 witness. -/
def zDet : Detector :=
  ⟨"L1", [Cx.ofQ 3, Cx.ofQ 1], [1, 1], [true, true], fun _ _ => [0, 0]⟩

/-- Concrete likelihood state for the C3 witness. -/
def zState : GWState :=
  ⟨[zDet], 1, 3, false, false, false, false, false, 0,
   fun _ _ => [], fun _ _ => [], fun q => q, fun l => l, fun z => z.re,
   fun q => q, fun q => q, fun _ _ => XR.fin 0, fun _ _ => XR.fin 0,
   [], 0, fun _ => 0, 0, 0, 1⟩

theorem c3_zero_signal_witness :
    (∀ d ∈ zState.interferometers, ∀ z ∈ d.response ([], []) wParams, z = (0 : Cx))
    ∧ (log_lr_with base_kernel zState (some ([], [])) wParams).1 = XR.fin 0 := by
  have hz : ∀ d ∈ zState.interferometers, ∀ z ∈ d.response ([], []) wParams, z = (0 : Cx) := by
    intro d hdm z hzm
    simp only [zState, List.mem_singleton] at hdm
    subst hdm
    simp only [zDet, List.mem_cons, List.not_mem_nil, or_false] at hzm
    rcases hzm with h | h <;> exact h
  exact ⟨hz, (c3_zero_signal zState wParams ([], []) rfl rfl rfl rfl rfl hz).2⟩

/-- Claim C4 (amended): when the waveform generator returns `None`,
`log_likelihood_ratio()` returns `np.nan_to_num(-np.inf)` — the most
negative finite double, not IEEE `-inf` — without raising, and the
parameters are unchanged.  This holds for every kernel, state and
parameter set, marginalization flags included. -/
theorem c4_none_waveform (kern : Kernel) (st : GWState) (p : Params) :
    (log_lr_with kern st none p).1 = XR.fin nan_to_num_neginf
    ∧ (log_lr_with kern st none p).2 = p :=
  ⟨rfl, rfl⟩

/-- Counterexample to claim C4 as stated: at a concrete state and
parameter set, the value returned for a `None` waveform is not `-inf`; it
is the finite sentinel `np.nan_to_num(-np.inf) = -(2^1024 - 2^971)`. -/
theorem c4_counterexample :
    (log_lr_with base_kernel wState none wParams).1 ≠ XR.neginf
    ∧ (log_lr_with base_kernel wState none wParams).1 = XR.fin nan_to_num_neginf := by
  constructor
  · rw [show (log_lr_with base_kernel wState none wParams).1
        = XR.fin nan_to_num_neginf from rfl]
    simp
  · rfl

/-- Claim C9: with time marginalization and jitter active, the
`time_jitter` parameter is added to `geocent_time` before the integrand is
computed (the kernel-facing parameters are the jitter-shifted ones) and
subtracted again before returning, so the externally visible
`geocent_time` equals its entry value after `log_likelihood_ratio`
returns — for a failed waveform as well. -/
theorem c9_jitter_restores_geocent_time (kern : Kernel) (st : GWState) (p : Params)
    (wfOut : Option Wf)
    (ht : st.time_marginalization = true) (hj : st.jitter_time = true) :
    (jitter_shift st p).geocent_time = p.geocent_time + p.time_jitter
    ∧ ((log_lr_with kern st wfOut p).2).geocent_time = p.geocent_time := by
  constructor
  · simp [jitter_shift, ht, hj]
  · cases wfOut with
    | none => rfl
    | some wf =>
      simp only [log_lr_with, jitter_shift, update_sky_frame_eq, ht, hj, Bool.and_self,
        if_true]
      ring_nf

/-- Concrete state with time marginalization and jitter on, for the C9
witness. -/
def jState : GWState :=
  ⟨[wDet], 1, 2, true, false, false, false, true, 0,
   fun _ _ => [], fun _ _ => [], fun q => q, fun l => l, fun z => z.re,
   fun q => q, fun q => q, fun _ _ => XR.fin 0, fun _ _ => XR.fin 0,
   [0], 1, fun _ => 1, 0, 1, 1⟩

/-- Concrete parameters with a nonzero jitter for the C9 witness. -/
def jParams : Params := ⟨5, 1 / 2, 1, 0, 0, none⟩

theorem c9_jitter_restores_geocent_time_witness :
    jState.time_marginalization = true
    ∧ ((log_lr_with base_kernel jState (some ([], [])) jParams).2).geocent_time
        = jParams.geocent_time :=
  ⟨rfl, (c9_jitter_restores_geocent_time base_kernel jState jParams (some ([], []))
    rfl rfl).2⟩

/-- Claim C10: `log_likelihood()` equals `log_likelihood_ratio()` plus
`noise_log_likelihood()`, for every kernel, state, waveform output and
parameter set, and it leaves the parameters exactly as the
`log_likelihood_ratio` call does. -/
theorem c10_log_likelihood_decomposition (kern : Kernel) (st : GWState)
    (wfOut : Option Wf) (p : Params) :
    (log_likelihood_with kern st wfOut p).1
        = (log_lr_with kern st wfOut p).1 + XR.fin (noise_log_likelihood st)
    ∧ (log_likelihood_with kern st wfOut p).2 = (log_lr_with kern st wfOut p).2 :=
  ⟨rfl, rfl⟩

/-- A prior map in which every key is present and none is fixed. -/
def goodPriors : String → PriorSpec := fun _ => ⟨true, false⟩

/-- Counterexample to claim C5 as stated: requesting distance,
calibration and time marginalization simultaneously is accepted at
construction — `__init__` raises no error for the triple combination. -/
theorem c5_counterexample :
    init_checks true true false true (some goodPriors) = Except.ok () := rfl

/-- Claim C5 (amended): the simultaneous distance + calibration + time
combination is not rejected at construction: `__init__` succeeds whenever
the marginalized priors are supplied and not fixed, and evaluation
proceeds — `log_likelihood_ratio` dispatches the triple to
`time_and_calibration_marginalized_likelihood` (whose distance branch then
evaluates the lookup-table formula) instead of failing fast. -/
theorem c5_triple_not_rejected (pr : String → PriorSpec)
    (h1 : (pr "geocent_time").fixed = false)
    (h2 : (pr "luminosity_distance").fixed = false)
    (kern : Kernel) (st : GWState) (wf : Wf) (p : Params)
    (ht : st.time_marginalization = true) (hd : st.distance_marginalization = true)
    (hc : st.calibration_marginalization = true) (hj : st.jitter_time = false) :
    init_checks true true false true (some pr) = Except.ok ()
    ∧ (log_lr_with kern st (some wf) p).1
        = time_and_calibration_marginalized_likelihood st p
            (((st.interferometers.map (fun d => kern st p wf d)).map arr_tc_dih).foldl add2C
              (List.replicate st.number_of_response_curves
                (List.replicate (st.n_freq - 1) (0 : Cx))))
            (((st.interferometers.map (fun d => kern st p wf d)).map arr_tc_osa).foldl addQ
              (List.replicate st.number_of_response_curves (0 : ℚ)))
    ∧ (∀ (dihA : List (List Cx)) (h : List ℚ),
        time_and_calibration_marginalized_likelihood st p dihA h
          = st.lse
              ((List.zipWith (fun row hk => row.map
                  (fun z => distance_marginalized_likelihood st p z hk))
                (dihA.map (fun row => maskC (st.times.map (fun t =>
                  decide (st.time_prior_min ≤ t) && decide (t ≤ st.time_prior_max))) row))
                h).flatten)
              ((h.map (fun _ => (maskQ (st.times.map (fun t =>
                  decide (st.time_prior_min ≤ t) && decide (t ≤ st.time_prior_max)))
                  st.times).map
                (fun t => st.time_prior_prob t * st.delta_tc /
                  (st.number_of_response_curves : ℚ)))).flatten)) := by
  refine ⟨?_, ?_, ?_⟩
  · simp [init_checks, h1, h2]
  · simp [log_lr_with, jitter_shift, update_sky_frame_eq, ht, hc, hj]
  · intro dihA h
    simp [time_and_calibration_marginalized_likelihood, hd, hj, List.map_map,
      Function.comp_def]

/-- Concrete state with the triple combination requested, for the C5
witness. -/
def tcState : GWState :=
  ⟨[wDet], 1, 2, true, true, false, true, false, 1,
   fun _ _ => [], fun _ _ => [], fun q => q, fun l => l, fun z => z.re,
   fun q => q, fun q => q, fun _ _ => XR.fin 0, fun _ _ => XR.fin 0,
   [0], 1, fun _ => 1, 0, 1, 1⟩

theorem c5_triple_not_rejected_witness :
    (goodPriors "geocent_time").fixed = false
    ∧ init_checks true true false true (some goodPriors) = Except.ok ()
    ∧ (log_lr_with base_kernel tcState (some ([], [])) wParams).1
        = time_and_calibration_marginalized_likelihood tcState wParams
            (((tcState.interferometers.map (fun d => base_kernel tcState wParams ([], []) d)).map
                arr_tc_dih).foldl add2C
              (List.replicate tcState.number_of_response_curves
                (List.replicate (tcState.n_freq - 1) (0 : Cx))))
            (((tcState.interferometers.map (fun d => base_kernel tcState wParams ([], []) d)).map
                arr_tc_osa).foldl addQ
              (List.replicate tcState.number_of_response_curves (0 : ℚ))) :=
  ⟨rfl,
   (c5_triple_not_rejected goodPriors rfl rfl base_kernel tcState ([], []) wParams
     rfl rfl rfl rfl).1,
   (c5_triple_not_rejected goodPriors rfl rfl base_kernel tcState ([], []) wParams
     rfl rfl rfl rfl).2.1⟩

/-- `_test_cached_lookup_table` succeeds exactly when all four
configuration keys are present and equal. -/
theorem test_cached_true_iff (cfg : DistMargConfig) (f : NpzFile) :
    (test_cached_lookup_table cfg f).1 = true ↔
      (f.distance_array = some cfg.distance_array
       ∧ f.prior_array = some cfg.prior_array
       ∧ f.reference_distance = some cfg.ref_dist
       ∧ f.phase_marginalization = some cfg.phase_marginalization) := by
  rcases f with ⟨fda, fpa, flt, frd, fpm⟩
  simp only [test_cached_lookup_table]
  cases fda <;> cases fpa <;> cases frd <;> cases fpm <;>
    simp <;> split_ifs <;> simp_all

/-- Claim C6: saving the distance-marginalization lookup table and
re-validating the reloaded file against the same configuration yields a
match (`(true, none)`), the load returns the file, and the table values
are identical; conversely, if any of the distance grid, prior values,
reference distance or phase-marginalization flag differs from (or is
absent in) the loaded file, validation reports a mismatch and setup
rebuilds the table instead of trusting it. -/
theorem c6_lookup_table_roundtrip (cfg : DistMargConfig) (f : NpzFile)
    (hmis : f.distance_array ≠ some cfg.distance_array
          ∨ f.prior_array ≠ some cfg.prior_array
          ∨ f.reference_distance ≠ some cfg.ref_dist
          ∨ f.phase_marginalization ≠ some cfg.phase_marginalization) :
    test_cached_lookup_table cfg (cache_lookup_table cfg) = (true, none)
    ∧ load_lookup_table cfg (some (cache_lookup_table cfg)) = some (cache_lookup_table cfg)
    ∧ (cache_lookup_table cfg).lookup_table = some cfg.lookup_table
    ∧ setup_distance_marginalization cfg (some (cache_lookup_table cfg))
        = TableSource.fromCache cfg.lookup_table
    ∧ (test_cached_lookup_table cfg f).1 = false
    ∧ setup_distance_marginalization cfg (some f) = TableSource.rebuilt := by
  have hrt : test_cached_lookup_table cfg (cache_lookup_table cfg) = (true, none) := by
    simp [test_cached_lookup_table, cache_lookup_table]
  have hload : load_lookup_table cfg (some (cache_lookup_table cfg))
      = some (cache_lookup_table cfg) := by
    simp [load_lookup_table, hrt]
  have hfalse : (test_cached_lookup_table cfg f).1 = false := by
    rcases Bool.eq_false_or_eq_true (test_cached_lookup_table cfg f).1 with h | h
    · rcases (test_cached_true_iff cfg f).mp h with ⟨e1, e2, e3, e4⟩
      rcases hmis with hm | hm | hm | hm <;> [exact absurd e1 hm; exact absurd e2 hm;
        exact absurd e3 hm; exact absurd e4 hm]
    · exact h
  refine ⟨hrt, hload, rfl, ?_, hfalse, ?_⟩
  · simp only [setup_distance_marginalization]
    rw [hload]
    simp [cache_lookup_table]
  · simp [setup_distance_marginalization, load_lookup_table, hfalse]

/-- Concrete configuration for the C6 witness. -/
def wCfg : DistMargConfig := ⟨[10, 20], [1 / 2, 1 / 2], 15, false, [[1, 2], [3, 4]]⟩

/-- A cache file whose reference distance disagrees with `wCfg`. -/
def badFile : NpzFile := ⟨some [10, 20], some [1 / 2, 1 / 2], some [[1, 2], [3, 4]], some 99, some false⟩

theorem c6_lookup_table_roundtrip_witness :
    badFile.reference_distance ≠ some wCfg.ref_dist
    ∧ test_cached_lookup_table wCfg (cache_lookup_table wCfg) = (true, none)
    ∧ (test_cached_lookup_table wCfg badFile).1 = false
    ∧ setup_distance_marginalization wCfg (some badFile) = TableSource.rebuilt := by
  have hm : badFile.reference_distance ≠ some wCfg.ref_dist := by
    simp [badFile, wCfg]
  have h := c6_lookup_table_roundtrip wCfg badFile (Or.inr (Or.inr (Or.inl hm)))
  exact ⟨hm, h.1, h.2.2.2.2.1, h.2.2.2.2.2⟩

/-- Indexing an arithmetic time grid. -/
theorem getD_range_grid (t0 δ : ℚ) (n k : ℕ) (hk : k < n) :
    ((List.range n).map (fun (j : ℕ) => t0 + (j : ℚ) * δ)).getD k 0 = t0 + (k : ℚ) * δ := by
  rw [List.getD_eq_getElem?_getD, List.getElem?_map, List.getElem?_range hk]
  rfl

/-- On an equally spaced five-point stencil evaluated exactly at the
central grid sample, the interpolation coefficients collapse to
`a = 1, b = 0, c = 0, d = 0` and the formula returns the stored value. -/
theorem interp_center (τ δ : ℚ) (hδ : δ ≠ 0) (v0 v1 v2 v3 v4 : Cx) :
    interp_a [τ, τ + δ, τ + 2 * δ, τ + 3 * δ, τ + 4 * δ] (τ + 2 * δ) = 1
    ∧ interp_b [τ, τ + δ, τ + 2 * δ, τ + 3 * δ, τ + 4 * δ] (τ + 2 * δ) = 0
    ∧ interp_c [τ, τ + δ, τ + 2 * δ, τ + 3 * δ, τ + 4 * δ] (τ + 2 * δ) = 0
    ∧ interp_d [τ, τ + δ, τ + 2 * δ, τ + 3 * δ, τ + 4 * δ] (τ + 2 * δ) = 0
    ∧ interp_five_samples [τ, τ + δ, τ + 2 * δ, τ + 3 * δ, τ + 4 * δ]
        [v0, v1, v2, v3, v4] (τ + 2 * δ) = v2 := by
  have ha : interp_a [τ, τ + δ, τ + 2 * δ, τ + 3 * δ, τ + 4 * δ] (τ + 2 * δ) = 1 := by
    simp only [interp_a, List.getD_cons_zero, List.getD_cons_succ]
    rw [show τ + 3 * δ - (τ + 2 * δ) = δ by ring, show τ + δ - τ = δ by ring]
    exact div_self hδ
  have hb : interp_b [τ, τ + δ, τ + 2 * δ, τ + 3 * δ, τ + 4 * δ] (τ + 2 * δ) = 0 := by
    rw [interp_b, ha]; norm_num
  have hc : interp_c [τ, τ + δ, τ + 2 * δ, τ + 3 * δ, τ + 4 * δ] (τ + 2 * δ) = 0 := by
    rw [interp_c, ha]; norm_num
  have hd : interp_d [τ, τ + δ, τ + 2 * δ, τ + 3 * δ, τ + 4 * δ] (τ + 2 * δ) = 0 := by
    rw [interp_d, hb]; norm_num
  refine ⟨ha, hb, hc, hd, ?_⟩
  simp only [interp_five_samples, ha, hb, hc, hd, List.getD_cons_zero, List.getD_cons_succ,
    Cx.smul_one_left, Cx.smul_zero_left, Cx.add_zero_cx]

/-- General form: whenever the stencil spacing `ts[1] - ts[0]` is nonzero
and `ts[3] - time` equals it (the case of a time lying exactly on the
central stencil sample of an equally spaced grid), the five-point formula
returns the stored central value. -/
theorem interp_at_center (ts : List ℚ) (time : ℚ) (vals : List Cx)
    (hδ : ts.getD 1 0 - ts.getD 0 0 ≠ 0)
    (hcenter : ts.getD 3 0 - time = ts.getD 1 0 - ts.getD 0 0) :
    interp_a ts time = 1 ∧ interp_b ts time = 0
    ∧ interp_c ts time = 0 ∧ interp_d ts time = 0
    ∧ interp_five_samples ts vals time = vals.getD 2 0 := by
  have ha : interp_a ts time = 1 := by
    rw [interp_a, hcenter]
    exact div_self hδ
  have hb : interp_b ts time = 0 := by
    rw [interp_b, ha]; norm_num
  have hc : interp_c ts time = 0 := by
    rw [interp_c, ha]; norm_num
  have hd : interp_d ts time = 0 := by
    rw [interp_d, hb]; norm_num
  refine ⟨ha, hb, hc, hd, ?_⟩
  simp only [interp_five_samples, ha, hb, hc, hd,
    Cx.smul_one_left, Cx.smul_zero_left, Cx.add_zero_cx]

/-- Claim C7: on an equally spaced five-point stencil, the interpolation
formula evaluated exactly at the central grid sample has `a = 1, b = 0`
(hence `c = 0, d = 0`) and returns the stored central value; consequently
the ROQ `calculate_snrs` at a coalescence time lying exactly on an
interior grid sample returns the precomputed grid value
`sum_i conj(h_linear)_i * weights[j, i]` as its `d_inner_h`. -/
theorem c7_roq_grid_point (st : GWState) (w : RoqWeights) (hLin hQuad : List Cx)
    (t0 δ : ℚ) (hδ : δ ≠ 0) (n j : ℕ)
    (hw : w.time_samples = (List.range n).map (fun (k : ℕ) => t0 + (k : ℚ) * δ))
    (hj2 : 2 ≤ j) (hjn : j + 2 < n)
    (τ : ℚ) (v0 v1 v2 v3 v4 : Cx) :
    interp_a [τ, τ + δ, τ + 2 * δ, τ + 3 * δ, τ + 4 * δ] (τ + 2 * δ) = 1
    ∧ interp_b [τ, τ + δ, τ + 2 * δ, τ + 3 * δ, τ + 4 * δ] (τ + 2 * δ) = 0
    ∧ interp_five_samples [τ, τ + δ, τ + 2 * δ, τ + 3 * δ, τ + 4 * δ]
        [v0, v1, v2, v3, v4] (τ + 2 * δ) = v2
    ∧ (roq_calculate_snrs st w hLin hQuad (t0 + (j : ℚ) * δ)).d_inner_h
        = csum (List.zipWith (fun h wgt => Cx.conj h * wgt) hLin (w.linear.getD j [])) := by
  have hcen := interp_center τ δ hδ v0 v1 v2 v3 v4
  refine ⟨hcen.1, hcen.2.1, hcen.2.2.2.2, ?_⟩
  have hn0 : 0 < n := by omega
  have hn1 : 1 < n := by omega
  have hs0 : w.time_samples.getD 0 0 = t0 := by
    rw [hw, getD_range_grid t0 δ n 0 hn0]; norm_num
  have hs1 : w.time_samples.getD 1 0 = t0 + δ := by
    rw [hw, getD_range_grid t0 δ n 1 hn1]; norm_num
  have hlen : w.time_samples.length = n := by rw [hw]; simp
  have hcl : pyInt ((t0 + (j : ℚ) * δ - w.time_samples.getD 0 0) /
      (w.time_samples.getD 1 0 - w.time_samples.getD 0 0)) = (j : ℤ) := by
    rw [hs0, hs1, show t0 + (j : ℚ) * δ - t0 = (j : ℚ) * δ by ring,
      show t0 + δ - t0 = δ by ring, mul_div_cancel_right₀ _ hδ]
    simp [pyInt, Int.floor_natCast, Nat.cast_nonneg]
  have hci : closest_time_indices (t0 + (j : ℚ) * δ) w.time_samples
      = ([(j : ℤ) - 2, (j : ℤ) - 1, (j : ℤ), (j : ℤ) + 1, (j : ℤ) + 2], true) := by
    simp only [closest_time_indices, hcl, hlen, Prod.mk.injEq, Bool.and_eq_true,
      decide_eq_true_eq]
    refine ⟨trivial, ?_, ?_⟩ <;> omega
  have e0 : ((j : ℤ) - 2).toNat = j - 2 := by omega
  have e1 : ((j : ℤ) - 1).toNat = j - 1 := by omega
  have e2 : ((j : ℤ)).toNat = j := by omega
  have e3 : ((j : ℤ) + 1).toNat = j + 1 := by omega
  have e4 : ((j : ℤ) + 2).toNat = j + 2 := by omega
  have g0 : w.time_samples.getD (j - 2) 0 = t0 + ((j : ℚ) - 2) * δ := by
    rw [hw, getD_range_grid t0 δ n (j - 2) (by omega), Nat.cast_sub hj2]
    norm_num
  have g1 : w.time_samples.getD (j - 1) 0 = t0 + ((j : ℚ) - 1) * δ := by
    rw [hw, getD_range_grid t0 δ n (j - 1) (by omega), Nat.cast_sub (by omega : 1 ≤ j)]
    norm_num
  have g2 : w.time_samples.getD j 0 = t0 + (j : ℚ) * δ := by
    rw [hw, getD_range_grid t0 δ n j (by omega)]
  have g3 : w.time_samples.getD (j + 1) 0 = t0 + ((j : ℚ) + 1) * δ := by
    rw [hw, getD_range_grid t0 δ n (j + 1) (by omega)]
    push_cast
    ring
  have g4 : w.time_samples.getD (j + 2) 0 = t0 + ((j : ℚ) + 2) * δ := by
    rw [hw, getD_range_grid t0 δ n (j + 2) (by omega)]
    push_cast
    ring
  simp only [roq_calculate_snrs, hci, List.map_cons, List.map_nil]
  simp only [e0, e1, e2, e3, e4, g0, g1, g2, g3, g4]
  norm_num
  have hfin := interp_at_center
    [t0 + ((j : ℚ) - 2) * δ, t0 + ((j : ℚ) - 1) * δ, t0 + (j : ℚ) * δ,
     t0 + ((j : ℚ) + 1) * δ, t0 + ((j : ℚ) + 2) * δ]
    (t0 + (j : ℚ) * δ)
    [csum (List.zipWith (fun h wgt => Cx.conj h * wgt) hLin (w.linear.getD (j - 2) [])),
     csum (List.zipWith (fun h wgt => Cx.conj h * wgt) hLin (w.linear.getD (j - 1) [])),
     csum (List.zipWith (fun h wgt => Cx.conj h * wgt) hLin (w.linear.getD j [])),
     csum (List.zipWith (fun h wgt => Cx.conj h * wgt) hLin (w.linear.getD (j + 1) [])),
     csum (List.zipWith (fun h wgt => Cx.conj h * wgt) hLin (w.linear.getD (j + 2) []))]
    (by simp only [List.getD_cons_zero, List.getD_cons_succ]
        rw [show t0 + ((j : ℚ) - 1) * δ - (t0 + ((j : ℚ) - 2) * δ) = δ by ring]
        exact hδ)
    (by simp only [List.getD_cons_zero, List.getD_cons_succ]
        ring)
  simpa using hfin.2.2.2.2

/-- Concrete ROQ weights on the arithmetic grid `0, 1, ..., 5` for the
ROQ witnesses. -/
def cW : RoqWeights :=
  ⟨(List.range 6).map (fun (k : ℕ) => 0 + (k : ℚ) * 1),
   [[Cx.ofQ 1], [Cx.ofQ 2], [Cx.ofQ 3], [Cx.ofQ 4], [Cx.ofQ 5], [Cx.ofQ 6]], []⟩

theorem c7_roq_grid_point_witness :
    (1 : ℚ) ≠ 0
    ∧ interp_five_samples [0, 0 + 1, 0 + 2 * 1, 0 + 3 * 1, 0 + 4 * 1]
        [Cx.ofQ 1, Cx.ofQ 2, Cx.ofQ 3, Cx.ofQ 4, Cx.ofQ 5] (0 + 2 * 1) = Cx.ofQ 3
    ∧ (roq_calculate_snrs wState cW [Cx.ofQ 1] [] (0 + ((2 : ℕ) : ℚ) * 1)).d_inner_h
        = csum (List.zipWith (fun h wgt => Cx.conj h * wgt) [Cx.ofQ 1] (cW.linear.getD 2 [])) :=
  ⟨by norm_num,
   (c7_roq_grid_point wState cW [Cx.ofQ 1] [] 0 1 (by norm_num) 6 2 rfl (by norm_num)
     (by norm_num) 0 (Cx.ofQ 1) (Cx.ofQ 2) (Cx.ofQ 3) (Cx.ofQ 4) (Cx.ofQ 5)).2.2.1,
   (c7_roq_grid_point wState cW [Cx.ofQ 1] [] 0 1 (by norm_num) 6 2 rfl (by norm_num)
     (by norm_num) 0 (Cx.ofQ 1) (Cx.ofQ 2) (Cx.ofQ 3) (Cx.ofQ 4) (Cx.ofQ 5)).2.2.2⟩

/-- Shared evaluation: when the five-point stencil around the requested
time leaves the ROQ window, the ROQ kernel returns the sentinel record
and a single-detector unmarginalized likelihood ratio evaluates to the
finite sentinel value. -/
theorem roq_out_of_window_eval (st : GWState) (w : RoqWeights) (d : Detector)
    (hLinF hQuadF : Detector → Wf → Params → List Cx) (timeF : Detector → Params → ℚ)
    (wf : Wf) (p : Params) (t0 δ : ℚ) (n : ℕ)
    (hw : w.time_samples = (List.range n).map (fun (k : ℕ) => t0 + (k : ℚ) * δ))
    (hn : 2 ≤ n) (_hδ : δ ≠ 0)
    (hoob : pyInt ((timeF d p - t0) / δ) < 2
          ∨ (n : ℤ) ≤ pyInt ((timeF d p - t0) / δ) + 2)
    (hifos : st.interferometers = [d])
    (ht : st.time_marginalization = false) (hdm : st.distance_marginalization = false)
    (hp : st.phase_marginalization = false) (hc : st.calibration_marginalization = false) :
    roq_calculate_snrs st w (hLinF d wf p) (hQuadF d wf p) (timeF d p)
      = ⟨Cx.ofQ nan_to_num_neginf, 0, some (Cx.ofQ nan_to_num_neginf), MargArrays.noArrays⟩
    ∧ (log_lr_with (roq_kernel_of (fun _ => w) hLinF hQuadF timeF) st (some wf) p).1
        = XR.fin nan_to_num_neginf := by
  have hs0 : w.time_samples.getD 0 0 = t0 := by
    rw [hw, getD_range_grid t0 δ n 0 (by omega)]; norm_num
  have hs1 : w.time_samples.getD 1 0 = t0 + δ := by
    rw [hw, getD_range_grid t0 δ n 1 (by omega)]; norm_num
  have hlen : w.time_samples.length = n := by rw [hw]; simp
  have hci2 : (closest_time_indices (timeF d p) w.time_samples).2 = false := by
    simp only [closest_time_indices, hs0, hs1, hlen,
      show t0 + δ - t0 = δ by ring]
    rcases hoob with h | h
    · have hlt : ¬ (0 ≤ pyInt ((timeF d p - t0) / δ) - 2) := by omega
      simp [hlt]
    · have hge : ¬ (pyInt ((timeF d p - t0) / δ) + 2 < (n : ℤ)) := by omega
      simp [hge]
  have hker : roq_calculate_snrs st w (hLinF d wf p) (hQuadF d wf p) (timeF d p)
      = ⟨Cx.ofQ nan_to_num_neginf, 0, some (Cx.ofQ nan_to_num_neginf),
         MargArrays.noArrays⟩ := by
    simp only [roq_calculate_snrs, hci2]
    norm_num
  refine ⟨hker, ?_⟩
  rw [llr_no_flags _ st wf p ht hdm hp hc, hifos]
  simp only [List.map_cons, List.map_nil, roq_kernel_of]
  rw [hker]
  simp only [csum_cons, csum_nil, Cx.add_zero_cx, Cx.zero_re, List.sum_cons, List.sum_nil]
  norm_num [Cx.ofQ]

/-- Claim C8 (amended): when the requested coalescence time lies within
two grid points of either edge of the precomputed ROQ time window (the
five-point stencil would leave the window), the ROQ `calculate_snrs` does
not extrapolate: it returns the sentinel record whose matched-filter
entries are `np.nan_to_num(-np.inf)` — the most negative finite double,
not IEEE `-inf` — with `optimal_snr_squared = 0`, and a single-detector
unmarginalized `log_likelihood_ratio` evaluates to that very low but
finite value instead of raising. -/
theorem c8_roq_edge_failure (st : GWState) (w : RoqWeights) (d : Detector)
    (hLinF hQuadF : Detector → Wf → Params → List Cx) (timeF : Detector → Params → ℚ)
    (wf : Wf) (p : Params) (t0 δ : ℚ) (n : ℕ)
    (hw : w.time_samples = (List.range n).map (fun (k : ℕ) => t0 + (k : ℚ) * δ))
    (hn : 2 ≤ n) (hδ : δ ≠ 0)
    (hoob : pyInt ((timeF d p - t0) / δ) < 2
          ∨ (n : ℤ) ≤ pyInt ((timeF d p - t0) / δ) + 2)
    (hifos : st.interferometers = [d])
    (ht : st.time_marginalization = false) (hdm : st.distance_marginalization = false)
    (hp : st.phase_marginalization = false) (hc : st.calibration_marginalization = false) :
    roq_calculate_snrs st w (hLinF d wf p) (hQuadF d wf p) (timeF d p)
      = ⟨Cx.ofQ nan_to_num_neginf, 0, some (Cx.ofQ nan_to_num_neginf), MargArrays.noArrays⟩
    ∧ (log_lr_with (roq_kernel_of (fun _ => w) hLinF hQuadF timeF) st (some wf) p).1
        = XR.fin nan_to_num_neginf :=
  roq_out_of_window_eval st w d hLinF hQuadF timeF wf p t0 δ n hw hn hδ hoob hifos
    ht hdm hp hc

/-- Concrete detector and state for the C8 counterexample and witness. -/
def c8Det : Detector := ⟨"V1", [], [], [], fun _ _ => []⟩

/-- Single-detector state with all marginalization flags off. -/
def c8St : GWState :=
  ⟨[c8Det], 1, 1, false, false, false, false, false, 0,
   fun _ _ => [], fun _ _ => [], fun q => q, fun l => l, fun z => z.re,
   fun q => q, fun q => q, fun _ _ => XR.fin 0, fun _ _ => XR.fin 0,
   [], 0, fun _ => 0, 0, 0, 1⟩

/-- Counterexample to claim C8 as stated: at a concrete out-of-window
request, the matched-filter quantities carry the finite sentinel
`np.nan_to_num(-np.inf)` — not IEEE `-inf` — and the propagated overall
log-likelihood-ratio is likewise not `-inf`. -/
theorem c8_counterexample :
    (roq_calculate_snrs c8St cW [] [] 100).d_inner_h = Cx.ofQ nan_to_num_neginf
    ∧ (log_lr_with (roq_kernel_of (fun _ => cW) (fun _ _ _ => []) (fun _ _ _ => [])
        (fun _ _ => 100)) c8St (some ([], [])) wParams).1 ≠ XR.neginf := by
  have h := roq_out_of_window_eval c8St cW c8Det (fun _ _ _ => []) (fun _ _ _ => [])
    (fun _ _ => 100) ([], []) wParams 0 1 6 rfl (by norm_num) (by norm_num)
    (by right
        norm_num [pyInt])
    rfl rfl rfl rfl rfl
  refine ⟨?_, ?_⟩
  · have := congrArg CalculatedSNRs.d_inner_h h.1
    simpa using this
  · rw [h.2]
    simp

theorem c8_roq_edge_failure_witness :
    ((6 : ℕ) : ℤ) ≤ pyInt (((100 : ℚ) - 0) / 1) + 2
    ∧ (log_lr_with (roq_kernel_of (fun _ => cW) (fun _ _ _ => []) (fun _ _ _ => [])
        (fun _ _ => 100)) c8St (some ([], [])) wParams).1
      = XR.fin nan_to_num_neginf := by
  have hb : ((6 : ℕ) : ℤ) ≤ pyInt (((100 : ℚ) - 0) / 1) + 2 := by
    norm_num [pyInt]
  exact ⟨hb,
    (c8_roq_edge_failure c8St cW c8Det (fun _ _ _ => []) (fun _ _ _ => [])
      (fun _ _ => 100) ([], []) wParams 0 1 6 rfl (by norm_num) (by norm_num)
      (Or.inr hb) rfl rfl rfl rfl rfl).2⟩
